import Mathlib

/-!
# Interaction layer of `src/js/main.js`

A shallow embedding of the three controllers of `main.js` (carousel, header and
navigation synchroniser, modal) together with the properties stated about them.

Conventions of the embedding:

* pixel lengths and scroll offsets are integers (`Int`); the arithmetic the
  script performs on them (`+ 1`, `- 2`, a product with the slide index,
  comparisons) is the same on integers;
* JavaScript numbers are doubles: a sum of two integers is the exact integer
  sum as long as its magnitude is at most `2 ^ 53 = 9007199254740992`, and
  the statements about sums of arbitrary integers carry that bound;
* `el.focus()` moves focus only to an element that can take focus; whether an
  element can is an explicit argument (`canFocus`);
* the JavaScript remainder `a % b` takes the sign of the dividend: it is
  `Int.tmod`;
* what the browser reports at the time of a call (bounding rectangles, scroll
  position, the focused element) is an explicit argument of the function that
  reads it;
* DOM elements are identified by natural numbers.
-/

namespace MainJs

/-! ## Carousel (`main.js`, lines 133 to 212) -/

/-- The three widths `currentViewportWidth` may read. -/
structure Layout where
  /-- The value of `viewport.getBoundingClientRect().width`. -/
  viewportRectWidth : Int
  /-- The value of `viewport.clientWidth`. -/
  viewportClientWidth : Int
  /-- The value of `root.getBoundingClientRect().width`. -/
  rootRectWidth : Int
deriving DecidableEq, Repr

/-- The mutable state of one installed carousel: the closure variables `idx`
and `slideW`, the constant `slides.length`, and the horizontal translation
last written to `track.style.transform` (`none` while nothing was written). -/
structure Carousel where
  /-- The value of `slides.length`. -/
  slideCount : Nat
  /-- The closure variable `idx`. -/
  idx : Int
  /-- The closure variable `slideW`. -/
  slideW : Int
  /-- The `x` of the last `translateX(x px)` written to the track. -/
  transform : Option Int
deriving DecidableEq, Repr

/-- The state right after `let idx = 0; let slideW = 0;` (lines 145 and 146). -/
def Carousel.initial (slideCount : Nat) : Carousel :=
  { slideCount := slideCount, idx := 0, slideW := 0, transform := none }

/-- The function `currentViewportWidth` (lines 148 to 152):
`w > 0 ? w : (viewport.clientWidth || root.getBoundingClientRect().width || 0)`. -/
def currentViewportWidth (l : Layout) : Int :=
  let w := l.viewportRectWidth
  if w > 0 then w
  else if l.viewportClientWidth ≠ 0 then l.viewportClientWidth
  else if l.rootRectWidth ≠ 0 then l.rootRectWidth
  else 0

/-- The function `measure` (lines 154 to 159). -/
def measure (l : Layout) (c : Carousel) : Carousel :=
  let w := currentViewportWidth l
  if w = 0 then c
  else { c with slideW := w, transform := some (-c.idx * w) }

/-- The function `goTo` (lines 161 to 166); the remainder of line 164 is the
truncating one. The sum `n + slides.length` is the integer sum, which is what
line 164 computes on doubles while `n + slides.length ≤ 2 ^ 53`; `next` and
`prev` only pass `idx + 1` and `idx - 1`. -/
def goTo (l : Layout) (n : Int) (c : Carousel) : Carousel :=
  let c1 := if c.slideW = 0 then measure l c else c
  if c1.slideW = 0 then c1
  else
    let i := (n + (c1.slideCount : Int)).tmod (c1.slideCount : Int)
    { c1 with idx := i, transform := some (-i * c1.slideW) }

/-- The function `next` (line 168). -/
def next (l : Layout) (c : Carousel) : Carousel := goTo l (c.idx + 1) c

/-- The function `prev` (line 169). -/
def prev (l : Layout) (c : Carousel) : Carousel := goTo l (c.idx - 1) c

/-- Installation of a carousel root (lines 136 to 146 and 210): nothing is
installed without a track, without a viewport or with fewer than three slides;
otherwise the state is initialised and measured once. -/
def install (hasTrack hasViewport : Bool) (slideCount : Nat) (l : Layout) :
    Option Carousel :=
  if !hasTrack || !hasViewport || decide (slideCount < 3) then none
  else some (measure l (Carousel.initial slideCount))

/-- A call made on an installed carousel, with the layout the browser reports
while the call runs. -/
inductive CarouselCall where
  | next (l : Layout)
  | prev (l : Layout)
  | measure (l : Layout)
deriving DecidableEq, Repr

/-- The layout a call reads. -/
def CarouselCall.layout : CarouselCall → Layout
  | .next l => l
  | .prev l => l
  | .measure l => l

/-- One call applied to the state. -/
def CarouselCall.apply : CarouselCall → Carousel → Carousel
  | .next l, c => MainJs.next l c
  | .prev l, c => MainJs.prev l c
  | .measure l, c => MainJs.measure l c

/-- A finite sequence of calls, applied from left to right. -/
def runCalls (calls : List CarouselCall) (c : Carousel) : Carousel :=
  calls.foldl (fun s call => call.apply s) c

/-- The widths of a layout are all non-negative, as rendered widths are. -/
def Layout.NonNeg (l : Layout) : Prop :=
  0 ≤ l.viewportRectWidth ∧ 0 ≤ l.viewportClientWidth ∧ 0 ≤ l.rootRectWidth

instance (l : Layout) : Decidable l.NonNeg := by
  unfold Layout.NonNeg; infer_instance

/-- `next` called once for each layout of the list, from left to right. -/
def nextAll (ls : List Layout) (c : Carousel) : Carousel :=
  ls.foldl (fun s l => next l s) c

/-! ## Header and navigation synchroniser (`main.js`, lines 37 to 128) -/

/-- One element of `sections`, with the rectangle `getBoundingClientRect`
reports for it during the current run. -/
structure Section where
  /-- The `id` of the element. -/
  id : String
  /-- The `top` of its bounding rectangle. -/
  top : Int
  /-- The `bottom` of its bounding rectangle. -/
  bottom : Int
deriving DecidableEq, Repr

/-- One element of `navLinks`: its `href` attribute and whether its class list
holds `is-active`. -/
structure NavLink where
  /-- The value of `getAttribute('href')`. -/
  href : String
  /-- Whether the link carries the class `is-active`. -/
  active : Bool
deriving DecidableEq, Repr

/-- What the browser reports while a scroll or resize recomputation runs. -/
structure Viewport where
  /-- The value of `window.scrollY`. -/
  scrollY : Int
  /-- The value of `window.innerHeight`. -/
  innerHeight : Int
  /-- The value of `document.documentElement.scrollHeight`. -/
  scrollHeight : Int
  /-- The value of `header.offsetHeight`. -/
  headerOffsetHeight : Int
  /-- The number read from `--header-h-large` when its value ends in `px` and
  parses to a number. -/
  headerHLarge : Option Int
  /-- The number read from `--header-h-compact`, likewise. -/
  headerHCompact : Option Int
deriving DecidableEq, Repr

/-- The part of the document the synchroniser writes: the class `is-compact`
of the header, the custom property `--header-h`, the `is-active` classes. -/
structure Page where
  /-- Whether `document.querySelector('.site-header')` found an element. -/
  hasHeader : Bool
  /-- Whether the header carries the class `is-compact`. -/
  compact : Bool
  /-- The number read from `--header-h` when its value ends in `px` and parses
  to a number. -/
  headerH : Option Int
  /-- The array `navLinks` with the current `is-active` marks. -/
  links : List NavLink
deriving DecidableEq, Repr

/-- The function `getCssPx` (lines 37 to 44) on an already parsed property:
`raw` is `some n` when the trimmed value ends in `px` and `parseFloat` gives
the number `n`, and `none` otherwise. -/
def getCssPx (raw : Option Int) (fallback : Int) : Int :=
  match raw with
  | some n => if n > 0 then n else fallback
  | none => fallback

/-- The function `setActive` (lines 54 to 57): every link is toggled to
whether its `href` equals `#` followed by the id. -/
def setActive (id : String) (links : List NavLink) : List NavLink :=
  let href := "#" ++ id
  links.map (fun a => { a with active := decide (a.href = href) })

/-- The function `syncHeaderState` (lines 59 to 70); `setCssPx` writes
`finalH` followed by `px`, which reads back as `finalH`. -/
def syncHeaderState (v : Viewport) (p : Page) : Page :=
  if !p.hasHeader then p
  else
    let shouldCompact := decide (v.scrollY > 0)
    let large := getCssPx v.headerHLarge 88
    let compact := getCssPx v.headerHCompact 56
    let finalH := if shouldCompact then compact else large
    { p with compact := shouldCompact, headerH := some finalH }

/-- The test of lines 89 to 92: the rectangle crosses the probe line. -/
def crossesProbe (probeY : Int) (sec : Section) : Bool :=
  decide (sec.top ≤ probeY) && decide (sec.bottom > probeY)

/-- The loop of lines 96 to 99, started with `lastId = sections[0].id`. -/
def lastAbove (probeY : Int) (secs : List Section) (firstId : String) : String :=
  secs.foldl (fun lastId sec => if sec.top ≤ probeY then sec.id else lastId) firstId

/-- Lines 88 to 102: the id handed to `setActive` when the page is not at the
bottom. The result is `none` only for an empty list, which line 73 excludes. -/
def probeSectionId (probeY : Int) (secs : List Section) : Option String :=
  match secs.find? (crossesProbe probeY) with
  | some current => some current.id
  | none =>
    match secs.head? with
    | some s0 => some (lastAbove probeY secs s0.id)
    | none => none

/-- The id `updateActiveLink` (lines 72 to 103) hands to `setActive`, or `none`
when it returns at line 73. -/
def activeSectionId (v : Viewport) (secs : List Section) (p : Page) : Option String :=
  if !p.hasHeader || secs.length == 0 || p.links.length == 0 then none
  else
    let headerH := getCssPx p.headerH
      (if v.headerOffsetHeight ≠ 0 then v.headerOffsetHeight else 64)
    let atBottom := decide (v.innerHeight + v.scrollY ≥ v.scrollHeight - 2)
    if atBottom then secs.getLast?.map (fun sec => sec.id)
    else
      let probeY := headerH + 1
      probeSectionId probeY secs

/-- The function `updateActiveLink` (lines 72 to 103). -/
def updateActiveLink (v : Viewport) (secs : List Section) (p : Page) : Page :=
  match activeSectionId v secs p with
  | some id => { p with links := setActive id p.links }
  | none => p

/-- The click handler of a nav link (lines 124 to 127): `slice(1)` drops the
first character of the `href`, and an empty id does nothing. -/
def clickLink (a : NavLink) (p : Page) : Page :=
  let id := a.href.drop 1
  if id ≠ "" then { p with links := setActive id p.links } else p

/-- What can happen to the navigation: a run of `updateActiveLink` with the
geometry of that moment, or a click on the link at position `i`. -/
inductive NavEvent where
  | update (v : Viewport) (secs : List Section)
  | click (i : Nat)
deriving DecidableEq, Repr

/-- One navigation event applied to the page. -/
def NavEvent.apply : NavEvent → Page → Page
  | .update v secs, p => updateActiveLink v secs p
  | .click i, p =>
    match p.links.get? i with
    | some a => clickLink a p
    | none => p

/-- A finite sequence of navigation events, applied from left to right. -/
def runNav (events : List NavEvent) (p : Page) : Page :=
  events.foldl (fun s e => e.apply s) p

/-- The number of links that carry `is-active`. -/
def activeCount (links : List NavLink) : Nat :=
  (links.filter (fun a => a.active)).length

/-! ### Throttling (`main.js`, lines 105 to 120) -/

/-- The body of the animation-frame callback (lines 111 and 112):
`syncHeaderState()` and then `updateActiveLink()`. -/
def recompute (v : Viewport) (secs : List Section) (p : Page) : Page :=
  updateActiveLink v secs (syncHeaderState v p)

/-- The throttle: the flag `ticking`, the number of frame callbacks requested
with `requestAnimationFrame` and not run yet, the number of recomputations
done so far, and the page they act on. -/
structure Throttle where
  /-- The variable `ticking`. -/
  ticking : Bool
  /-- The frame callbacks requested and not yet run. -/
  pending : Nat
  /-- The number of times the callback body has run. -/
  recomputations : Nat
  /-- The page the callback acts on. -/
  page : Page
deriving DecidableEq, Repr

/-- The state at line 106, before the first call of `onScrollOrResize`. -/
def Throttle.start (p : Page) : Throttle :=
  { ticking := false, pending := 0, recomputations := 0, page := p }

/-- The function `onScrollOrResize` (lines 107 to 115) up to the request of the
frame callback. -/
def onScrollOrResize (t : Throttle) : Throttle :=
  if t.ticking then t
  else { t with ticking := true, pending := t.pending + 1 }

/-- One run of the requested callback (lines 110 to 114). -/
def frameCallback (v : Viewport) (secs : List Section) (t : Throttle) : Throttle :=
  { t with page := recompute v secs t.page,
           recomputations := t.recomputations + 1,
           ticking := false }

/-- An animation frame: the browser runs every callback requested so far. -/
def animationFrame (v : Viewport) (secs : List Section) (t : Throttle) : Throttle :=
  { (Nat.iterate (frameCallback v secs) t.pending t) with pending := 0 }

/-- A step of the throttle: a scroll or resize event, or an animation frame. -/
inductive ThrottleStep where
  | event
  | frame (v : Viewport) (secs : List Section)
deriving DecidableEq, Repr

/-- One step applied to the throttle. -/
def ThrottleStep.apply : ThrottleStep → Throttle → Throttle
  | .event, t => onScrollOrResize t
  | .frame v secs, t => animationFrame v secs t

/-- A finite sequence of steps, applied from left to right. -/
def runThrottle (steps : List ThrottleStep) (t : Throttle) : Throttle :=
  steps.foldl (fun s st => st.apply s) t

/-! ## Modal (`main.js`, lines 217 to 286) -/

/-- The part of the document the modal controller writes: the `aria-hidden`
attribute of each dialog, the class `modal-open` of the body, the variable
`lastActiveOpener` and `document.activeElement`. The registration of the
key-down listener is not part of the state; the listener itself is `trap`. -/
structure ModalState where
  /-- The `aria-hidden` attribute of each element (`none` when absent). -/
  ariaHidden : Nat → Option String
  /-- Whether the body carries the class `modal-open`. -/
  bodyModalOpen : Bool
  /-- The variable `lastActiveOpener`. -/
  lastActiveOpener : Option Nat
  /-- The value of `document.activeElement`. -/
  activeElement : Option Nat

/-- The dialog is marked open: its `aria-hidden` is `"false"`. -/
def ModalState.isOpen (s : ModalState) (d : Nat) : Bool :=
  s.ariaHidden d == some "false"

/-- A state in which every dialog carries `aria-hidden="true"` and the body
has no marker. -/
def ModalState.allClosed (focused : Option Nat) : ModalState :=
  { ariaHidden := fun _ => some "true",
    bodyModalOpen := false,
    lastActiveOpener := none,
    activeElement := focused }

/-- The effect of `el.focus()` on `document.activeElement`: focus moves to the
element when it can take focus and stays where it is otherwise (a hidden
input, a container without `tabindex`). -/
def focus (canFocus : Nat → Bool) (el : Nat) (active : Option Nat) : Option Nat :=
  if canFocus el then some el else active

/-- The function `openModal` (lines 228 to 248) on a dialog that exists;
`focusables` is the value of `getFocusable(modal)` and `canFocus` tells which
elements take focus. -/
def openModal (modal : Nat) (focusables : List Nat) (canFocus : Nat → Bool)
    (s : ModalState) : ModalState :=
  { ariaHidden := fun x => if x = modal then some "false" else s.ariaHidden x,
    bodyModalOpen := true,
    lastActiveOpener := s.activeElement,
    activeElement := focus canFocus (focusables.headD modal) s.activeElement }

/-- The function `closeModal` (lines 250 to 260) on a dialog that exists;
`attached` is `document.body.contains` and `canFocus` tells which elements
take focus. -/
def closeModal (modal : Nat) (attached : Nat → Bool) (canFocus : Nat → Bool)
    (s : ModalState) : ModalState :=
  { ariaHidden := fun x => if x = modal then some "true" else s.ariaHidden x,
    bodyModalOpen := false,
    lastActiveOpener := s.lastActiveOpener,
    activeElement :=
      match s.lastActiveOpener with
      | some o => if attached o then focus canFocus o s.activeElement else s.activeElement
      | none => s.activeElement }

/-- A call of the modal controller, with what it reads from the document. -/
inductive ModalCall where
  | openModal (modal : Nat) (focusables : List Nat) (canFocus : Nat → Bool)
  | closeModal (modal : Nat) (attached : Nat → Bool) (canFocus : Nat → Bool)

/-- One call applied to the state. -/
def ModalCall.apply : ModalCall → ModalState → ModalState
  | .openModal d fs cf, s => MainJs.openModal d fs cf s
  | .closeModal d att cf, s => MainJs.closeModal d att cf s

/-- A finite sequence of calls, applied from left to right. -/
def runModal (calls : List ModalCall) (s : ModalState) : ModalState :=
  calls.foldl (fun st c => c.apply st) s

/-- The condition put on one call: none on `openModal`; `closeModal(d)` is made
while no dialog other than `d` is marked open. -/
def ModalCall.ClosesAlone : ModalCall → ModalState → Prop
  | .openModal _ _ _, _ => True
  | .closeModal m _ _, s => ∀ d, s.isOpen d = true → d = m

/-- Every `closeModal(d)` of the sequence is made while no dialog other than
`d` is marked open. -/
def ClosesAlone : List ModalCall → ModalState → Prop
  | [], _ => True
  | c :: rest, s => c.ClosesAlone s ∧ ClosesAlone rest (c.apply s)

/-- A key-down event: its `key` and its `shiftKey`. -/
structure KeyEvent where
  /-- The property `key`. -/
  key : String
  /-- The property `shiftKey`. -/
  shiftKey : Bool
deriving DecidableEq, Repr

/-- What a key-down handler leaves behind: the focused element and whether
`preventDefault` was called. -/
structure TrapResult where
  /-- The value of `document.activeElement` after the handler. -/
  activeElement : Option Nat
  /-- Whether `e.preventDefault()` was called. -/
  defaultPrevented : Bool
deriving DecidableEq, Repr

/-- The handler `trap` (lines 238 to 245); `list` is the value of
`getFocusable(modal)` at the key stroke, `active` the focused element and
`canFocus` tells which elements take focus. -/
def trap (canFocus : Nat → Bool) (e : KeyEvent) (list : List Nat) (active : Option Nat) :
    TrapResult :=
  if e.key ≠ "Tab" then { activeElement := active, defaultPrevented := false }
  else
    match list with
    | [] => { activeElement := active, defaultPrevented := false }
    | first :: rest =>
      let last := (first :: rest).getLast (List.cons_ne_nil first rest)
      if e.shiftKey && active == some first then
        { activeElement := focus canFocus last active, defaultPrevented := true }
      else if !e.shiftKey && active == some last then
        { activeElement := focus canFocus first active, defaultPrevented := true }
      else { activeElement := active, defaultPrevented := false }

/-! ## Properties of the carousel -/

/-- On a non-negative dividend shifted by the slide count, the truncating
remainder is the residue. -/
theorem tmod_shift (N : Nat) (hN : 0 < N) (m : Int) (hm : 0 ≤ m + (N : Int)) :
    (m + (N : Int)).tmod (N : Int) = m % (N : Int) := by
  rw [Int.tmod_eq_emod hm (by omega), Int.add_emod_self]

/-- The truncating remainder is odd in the dividend. -/
theorem tmod_neg_left (a b : Int) : (-a).tmod b = -(a.tmod b) := by
  rw [Int.tmod_def, Int.tmod_def, Int.neg_tdiv]
  ring

/-- The double remainder `((n mod N) + N) mod N`, taken with the truncating
remainder, is the residue of `n` in `[0, N)`. -/
theorem tmod_twice (N : Nat) (hN : 0 < N) (n : Int) :
    (n.tmod (N : Int) + (N : Int)).tmod (N : Int) = n % (N : Int) := by
  have hpos : (0 : Int) < (N : Int) := by exact_mod_cast hN
  have hlow : -(N : Int) < n.tmod (N : Int) := by
    rcases le_or_lt 0 n with h | h
    · have := Int.tmod_nonneg (N : Int) h
      omega
    · have h1 : (-n).tmod (N : Int) < N := Int.tmod_lt_of_pos _ hpos
      rw [tmod_neg_left] at h1
      omega
  rw [Int.tmod_eq_emod (by omega) (by omega), Int.add_emod_self, Int.tmod_def]
  rw [Int.sub_eq_add_neg, ← Int.mul_neg, Int.add_mul_emod_self_left]

theorem currentViewportWidth_nonneg (l : Layout) (h : l.NonNeg) :
    0 ≤ currentViewportWidth l := by
  obtain ⟨h1, h2, h3⟩ := h
  unfold currentViewportWidth
  simp only
  split_ifs <;> omega

theorem measure_idx (l : Layout) (c : Carousel) : (measure l c).idx = c.idx := by
  unfold measure
  simp only
  split_ifs <;> rfl

theorem measure_slideCount (l : Layout) (c : Carousel) :
    (measure l c).slideCount = c.slideCount := by
  unfold measure
  simp only
  split_ifs <;> rfl

theorem measure_slideW (l : Layout) (c : Carousel) :
    (measure l c).slideW
      = if currentViewportWidth l = 0 then c.slideW else currentViewportWidth l := by
  unfold measure
  simp only
  split_ifs <;> rfl

theorem goTo_slideCount (l : Layout) (n : Int) (c : Carousel) :
    (goTo l n c).slideCount = c.slideCount := by
  unfold goTo
  simp only
  split_ifs <;> simp [measure_slideCount]

/-- With a width in hand (stored, or measured by the call), `goTo` stores the
truncating remainder and translates the track by it. -/
theorem goTo_of_width (l : Layout) (n : Int) (c : Carousel)
    (h : c.slideW ≠ 0 ∨ currentViewportWidth l ≠ 0) :
    (goTo l n c).idx = (n + (c.slideCount : Int)).tmod (c.slideCount : Int)
      ∧ (goTo l n c).slideW ≠ 0
      ∧ (goTo l n c).slideW = (if c.slideW = 0 then currentViewportWidth l else c.slideW)
      ∧ (goTo l n c).transform = some (-((goTo l n c).idx * (goTo l n c).slideW)) := by
  unfold goTo
  by_cases hs : c.slideW = 0
  · have hw : currentViewportWidth l ≠ 0 := by
      rcases h with h | h
      · exact absurd hs h
      · exact h
    simp [hs, measure_slideW, measure_slideCount, hw]
  · simp [hs]

/-- Without a width (none stored, none measured), `goTo` changes nothing. -/
theorem goTo_of_no_width (l : Layout) (n : Int) (c : Carousel)
    (hs : c.slideW = 0) (hw : currentViewportWidth l = 0) : goTo l n c = c := by
  unfold goTo measure
  simp [hs, hw]

/-- The invariant of an installed carousel with `N` slides. -/
theorem call_preserves (N : Nat) (hN : 3 ≤ N) (call : CarouselCall) (c : Carousel)
    (hl : call.layout.NonNeg)
    (hc : c.slideCount = N ∧ 0 ≤ c.idx ∧ c.idx < (N : Int) ∧ 0 ≤ c.slideW) :
    (call.apply c).slideCount = N ∧ 0 ≤ (call.apply c).idx
      ∧ (call.apply c).idx < (N : Int) ∧ 0 ≤ (call.apply c).slideW := by
  obtain ⟨hcN, h0, h1, hw⟩ := hc
  have hpos : (0 : Int) < (N : Int) := by exact_mod_cast (by omega : 0 < N)
  have key : ∀ (l : Layout) (n : Int), l.NonNeg → -1 ≤ n →
      (goTo l n c).slideCount = N ∧ 0 ≤ (goTo l n c).idx
        ∧ (goTo l n c).idx < (N : Int) ∧ 0 ≤ (goTo l n c).slideW := by
    intro l n hnn hn
    have hcw := currentViewportWidth_nonneg l hnn
    refine ⟨by rw [goTo_slideCount, hcN], ?_⟩
    by_cases h : c.slideW ≠ 0 ∨ currentViewportWidth l ≠ 0
    · obtain ⟨e1, _, e3, _⟩ := goTo_of_width l n c h
      rw [e1, e3, hcN, tmod_shift N (by omega) n (by omega)]
      refine ⟨Int.emod_nonneg _ (by omega), Int.emod_lt_of_pos _ hpos, ?_⟩
      split_ifs <;> assumption
    · push_neg at h
      rw [goTo_of_no_width l n c h.1 h.2]
      exact ⟨h0, h1, hw⟩
  cases call with
  | next l => exact key l (c.idx + 1) hl (by omega)
  | prev l => exact key l (c.idx - 1) hl (by omega)
  | measure l =>
    have hcw := currentViewportWidth_nonneg l hl
    refine ⟨?_, ?_, ?_, ?_⟩
    · show (measure l c).slideCount = N
      rw [measure_slideCount, hcN]
    · show 0 ≤ (measure l c).idx
      rw [measure_idx]; exact h0
    · show (measure l c).idx < (N : Int)
      rw [measure_idx]; exact h1
    · show 0 ≤ (measure l c).slideW
      rw [measure_slideW]
      split_ifs <;> assumption

theorem runCalls_preserves (N : Nat) (hN : 3 ≤ N) (calls : List CarouselCall) :
    ∀ c : Carousel, (∀ call ∈ calls, call.layout.NonNeg) →
      (c.slideCount = N ∧ 0 ≤ c.idx ∧ c.idx < (N : Int) ∧ 0 ≤ c.slideW) →
      ((runCalls calls c).slideCount = N ∧ 0 ≤ (runCalls calls c).idx
        ∧ (runCalls calls c).idx < (N : Int) ∧ 0 ≤ (runCalls calls c).slideW) := by
  induction calls with
  | nil => intro c _ hc; exact hc
  | cons call rest ih =>
    intro c hl hc
    have h1 := call_preserves N hN call c (hl call (List.mem_cons_self _ _)) hc
    exact ih (call.apply c) (fun x hx => hl x (List.mem_cons_of_mem _ hx)) h1

/-- One `next` with a width in hand advances the index by one modulo the
slide count and leaves a width in hand. -/
theorem next_of_width (N : Nat) (hN : 3 ≤ N) (l : Layout) (c : Carousel)
    (hcN : c.slideCount = N) (h0 : 0 ≤ c.idx)
    (h : c.slideW ≠ 0 ∨ currentViewportWidth l ≠ 0) :
    (next l c).slideCount = N ∧ (next l c).idx = (c.idx + 1) % (N : Int)
      ∧ (next l c).slideW ≠ 0 := by
  unfold next
  obtain ⟨e1, e2, _, _⟩ := goTo_of_width l (c.idx + 1) c h
  refine ⟨by rw [goTo_slideCount, hcN], ?_, e2⟩
  rw [e1, hcN, tmod_shift N (by omega) _ (by omega)]

theorem nextAll_idx (N : Nat) (hN : 3 ≤ N) (ls : List Layout) :
    ∀ c : Carousel, c.slideCount = N → 0 ≤ c.idx → c.idx < (N : Int) →
      (∀ l ∈ ls, c.slideW ≠ 0 ∨ currentViewportWidth l ≠ 0) →
      (nextAll ls c).idx = (c.idx + (ls.length : Int)) % (N : Int) := by
  induction ls with
  | nil =>
    intro c _ h0 h1 _
    show c.idx = _
    rw [List.length_nil, Int.ofNat_zero, Int.add_zero, Int.emod_eq_of_lt h0 h1]
  | cons l rest ih =>
    intro c hcN h0 _ hl
    have hpos : (0 : Int) < (N : Int) := by exact_mod_cast (by omega : 0 < N)
    obtain ⟨e1, e2, e3⟩ := next_of_width N hN l c hcN h0 (hl l (List.mem_cons_self _ _))
    have hnn : 0 ≤ (next l c).idx := by rw [e2]; exact Int.emod_nonneg _ (by omega)
    have hlt : (next l c).idx < (N : Int) := by rw [e2]; exact Int.emod_lt_of_pos _ hpos
    have step := ih (next l c) e1 hnn hlt (fun x _ => Or.inl e3)
    show (nextAll rest (next l c)).idx = _
    rw [step, e2, Int.emod_add_emod, List.length_cons]
    push_cast
    congr 1
    ring

/-- C1, as stated, fails below `-N`, a case the claim names: with three slides
and a stored width of 100, `goTo(-4)` stores the index `-1`, not the residue
`2` of `-4`. -/
theorem goTo_below_minus_count_counterexample :
    (goTo ⟨0, 0, 0⟩ (-4) ⟨3, 0, 100, some 0⟩).idx = -1
      ∧ ¬ ((goTo ⟨0, 0, 0⟩ (-4) ⟨3, 0, 100, some 0⟩).idx
            = (((-4 : Int).tmod 3) + 3).tmod 3)
      ∧ ¬ ((goTo ⟨0, 0, 0⟩ (-4) ⟨3, 0, 100, some 0⟩).idx = (-4 : Int) % 3) := by
  decide

/-- C1 (amended): for a carousel with `N ≥ 3` slides, a stored non-zero slide
width and every integer `n` with `-N ≤ n` and `n + N ≤ 2 ^ 53` (the range in
which the sum of line 164 is exact; it holds every value `next` and `prev`
pass), `goTo(n)` sets `currentIndex` to `((n mod N) + N) mod N`, the residue
of `n` in `[0, N)`, and sets the track translation to
`-(currentIndex * slideWidth)`. -/
theorem goTo_wraps_from_minus_count (l : Layout) (c : Carousel) (n : Int)
    (hN : 3 ≤ c.slideCount) (hw : c.slideW ≠ 0) (hn : -(c.slideCount : Int) ≤ n)
    (hmax : n + (c.slideCount : Int) ≤ 9007199254740992) :
    (goTo l n c).idx = n % (c.slideCount : Int)
      ∧ (goTo l n c).idx
          = (n.tmod (c.slideCount : Int) + (c.slideCount : Int)).tmod (c.slideCount : Int)
      ∧ 0 ≤ (goTo l n c).idx ∧ (goTo l n c).idx < (c.slideCount : Int)
      ∧ (goTo l n c).slideW = c.slideW
      ∧ (goTo l n c).transform = some (-((goTo l n c).idx * c.slideW)) := by
  have hpos : (0 : Int) < (c.slideCount : Int) := by exact_mod_cast (by omega : 0 < c.slideCount)
  have hsum : 0 ≤ n + (c.slideCount : Int) ∧ n + (c.slideCount : Int) ≤ 9007199254740992 :=
    ⟨by omega, hmax⟩
  obtain ⟨e1, _, e3, e4⟩ := goTo_of_width l n c (Or.inl hw)
  have e5 : (goTo l n c).slideW = c.slideW := by rw [e3, if_neg hw]
  have e6 : (goTo l n c).idx = n % (c.slideCount : Int) := by
    rw [e1, tmod_shift c.slideCount (by omega) n hsum.1]
  refine ⟨e6, ?_, ?_, ?_, e5, ?_⟩
  · rw [e6, tmod_twice c.slideCount (by omega) n]
  · rw [e6]; exact Int.emod_nonneg _ (by omega)
  · rw [e6]; exact Int.emod_lt_of_pos _ hpos
  · rw [e4, e5]

/-- C1 (amended), at three slides of width 100 and `n = -3`. -/
theorem goTo_wraps_from_minus_count_witness :
    (3 ≤ (⟨3, 1, 100, some (-100)⟩ : Carousel).slideCount)
      ∧ (⟨3, 1, 100, some (-100)⟩ : Carousel).slideW ≠ 0
      ∧ -(((⟨3, 1, 100, some (-100)⟩ : Carousel).slideCount : Nat) : Int) ≤ -3
      ∧ (-3 : Int) + (((⟨3, 1, 100, some (-100)⟩ : Carousel).slideCount : Nat) : Int)
          ≤ 9007199254740992
      ∧ (goTo ⟨0, 0, 0⟩ (-3) ⟨3, 1, 100, some (-100)⟩).idx = (-3 : Int) % ((3 : Nat) : Int) :=
  ⟨by decide, by decide, by decide, by decide,
    (goTo_wraps_from_minus_count ⟨0, 0, 0⟩ ⟨3, 1, 100, some (-100)⟩ (-3)
      (by decide) (by decide) (by decide) (by decide)).1⟩

/-- C2: in every state an installed carousel with `N ≥ 3` slides reaches from
`currentIndex = 0`, `slideWidth = 0` by `next()`, `prev()` and `measure()`
calls that read non-negative widths, `0 ≤ currentIndex < N` and
`slideWidth ≥ 0`. -/
theorem carousel_index_in_range (N : Nat) (hN : 3 ≤ N) (calls : List CarouselCall)
    (hl : ∀ call ∈ calls, call.layout.NonNeg) :
    0 ≤ (runCalls calls (Carousel.initial N)).idx
      ∧ (runCalls calls (Carousel.initial N)).idx < (N : Int)
      ∧ 0 ≤ (runCalls calls (Carousel.initial N)).slideW := by
  have h := runCalls_preserves N hN calls (Carousel.initial N) hl
    ⟨rfl, le_refl _, by show (0 : Int) < (N : Int); exact_mod_cast (by omega : 0 < N),
      le_refl _⟩
  exact h.2

/-- C2, at three slides and the calls `prev`, `measure`, `next`, `next`. -/
theorem carousel_index_in_range_witness :
    (∀ call ∈ [CarouselCall.prev ⟨0, 0, 0⟩, CarouselCall.measure ⟨320, 320, 400⟩,
        CarouselCall.next ⟨0, 0, 0⟩, CarouselCall.next ⟨0, 300, 300⟩],
        call.layout.NonNeg)
      ∧ 0 ≤ (runCalls [CarouselCall.prev ⟨0, 0, 0⟩, CarouselCall.measure ⟨320, 320, 400⟩,
        CarouselCall.next ⟨0, 0, 0⟩, CarouselCall.next ⟨0, 300, 300⟩]
          (Carousel.initial 3)).idx :=
  ⟨by decide,
    (carousel_index_in_range 3 (by decide)
      [CarouselCall.prev ⟨0, 0, 0⟩, CarouselCall.measure ⟨320, 320, 400⟩,
        CarouselCall.next ⟨0, 0, 0⟩, CarouselCall.next ⟨0, 300, 300⟩] (by decide)).1⟩

/-- C3: for a carousel with `N ≥ 3` slides whose width measures non-zero,
from `currentIndex = 0`, `N` calls of `next()` return `currentIndex` to 0 and
one call of `prev()` yields `currentIndex = N - 1`. -/
theorem next_cycle_and_prev_wrap (N : Nat) (hN : 3 ≤ N) (c : Carousel)
    (hcN : c.slideCount = N) (h0 : c.idx = 0)
    (ls : List Layout) (hlen : ls.length = N)
    (hls : ∀ l ∈ ls, currentViewportWidth l ≠ 0)
    (l : Layout) (hl : currentViewportWidth l ≠ 0) :
    (nextAll ls c).idx = 0 ∧ (prev l c).idx = (N : Int) - 1 := by
  have hpos : (0 : Int) < (N : Int) := by exact_mod_cast (by omega : 0 < N)
  constructor
  · rw [nextAll_idx N hN ls c hcN (by omega) (by omega) (fun x hx => Or.inr (hls x hx)),
      h0, hlen, Int.zero_add, Int.emod_self]
  · unfold prev
    obtain ⟨e1, _, _, _⟩ := goTo_of_width l (c.idx - 1) c (Or.inr hl)
    rw [e1, hcN, tmod_shift N (by omega) _ (by omega), h0]
    have h : (0 - 1 : Int) % (N : Int) = ((N : Int) - 1) % (N : Int) := by
      rw [← Int.add_emod_self]
      congr 1
    rw [h, Int.emod_eq_of_lt (by omega) (by omega)]

/-- C3, at three slides measured 320 wide. -/
theorem next_cycle_and_prev_wrap_witness :
    (∀ l ∈ [(⟨320, 320, 400⟩ : Layout), ⟨320, 320, 400⟩, ⟨320, 320, 400⟩],
        currentViewportWidth l ≠ 0)
      ∧ (nextAll [⟨320, 320, 400⟩, ⟨320, 320, 400⟩, ⟨320, 320, 400⟩]
          (Carousel.initial 3)).idx = 0
      ∧ (prev ⟨320, 320, 400⟩ (Carousel.initial 3)).idx = ((3 : Nat) : Int) - 1 :=
  ⟨by decide,
    next_cycle_and_prev_wrap 3 (by decide) (Carousel.initial 3) rfl rfl
      [⟨320, 320, 400⟩, ⟨320, 320, 400⟩, ⟨320, 320, 400⟩] rfl (by decide)
      ⟨320, 320, 400⟩ (by decide)⟩

/-- C4, as stated, fails once a width is stored: with the width 100 stored by
an earlier measurement and every width now reported as 0, `goTo(1)` still moves
the index from 0 to 1 and the track from 0 to -100. -/
theorem goTo_stored_width_counterexample :
    currentViewportWidth ⟨0, 0, 0⟩ = 0
      ∧ (goTo ⟨0, 0, 0⟩ 1 ⟨3, 0, 100, some 0⟩).idx = 1
      ∧ (goTo ⟨0, 0, 0⟩ 1 ⟨3, 0, 100, some 0⟩).transform = some (-100)
      ∧ ¬ ((goTo ⟨0, 0, 0⟩ 1 ⟨3, 0, 100, some 0⟩).idx = (⟨3, 0, 100, some 0⟩ : Carousel).idx
            ∧ (goTo ⟨0, 0, 0⟩ 1 ⟨3, 0, 100, some 0⟩).transform
                = (⟨3, 0, 100, some 0⟩ : Carousel).transform) := by
  decide

/-- C4 (amended): for every carousel state whose stored slide width is 0 and
every integer `n`, if the viewport width resolves to 0 at the time of the call
then `goTo(n)` leaves `currentIndex` and the track translation unchanged. -/
theorem goTo_zero_width_guard (l : Layout) (n : Int) (c : Carousel)
    (hs : c.slideW = 0) (hw : currentViewportWidth l = 0) :
    (goTo l n c).idx = c.idx ∧ (goTo l n c).transform = c.transform
      ∧ goTo l n c = c := by
  have h := goTo_of_no_width l n c hs hw
  exact ⟨by rw [h], by rw [h], h⟩

/-- C4 (amended), at an unmeasured carousel of three slides. -/
theorem goTo_zero_width_guard_witness :
    (Carousel.initial 3).slideW = 0 ∧ currentViewportWidth ⟨0, 0, 0⟩ = 0
      ∧ (goTo ⟨0, 0, 0⟩ 5 (Carousel.initial 3)).idx = (Carousel.initial 3).idx
      ∧ (goTo ⟨0, 0, 0⟩ 5 (Carousel.initial 3)).transform = (Carousel.initial 3).transform :=
  ⟨rfl, by decide,
    (goTo_zero_width_guard ⟨0, 0, 0⟩ 5 (Carousel.initial 3) rfl (by decide)).1,
    (goTo_zero_width_guard ⟨0, 0, 0⟩ 5 (Carousel.initial 3) rfl (by decide)).2.1⟩

/-! ## Properties of the navigation synchroniser -/

theorem find_first {α : Type} (q : α → Bool) :
    ∀ (xs : List α) (i : Nat) (hi : i < xs.length), q xs[i] = true →
      (∀ j (hj : j < xs.length), j < i → q xs[j] = false) →
      xs.find? q = some xs[i] := by
  intro xs
  induction xs with
  | nil => intro i hi; exact absurd hi (Nat.not_lt_zero _)
  | cons x rest ih =>
    intro i hi hq hbefore
    cases i with
    | zero => exact List.find?_cons_of_pos _ hq
    | succ k =>
      have hx : q x = false := hbefore 0 (Nat.succ_pos _) (Nat.succ_pos _)
      rw [List.find?_cons_of_neg _ (by simp [hx])]
      have hk : k < rest.length := Nat.lt_of_succ_lt_succ hi
      exact ih k hk hq (fun j hj hjk => hbefore (j + 1) (Nat.succ_lt_succ hj) (Nat.succ_lt_succ hjk))

theorem lastAbove_of_none (probeY : Int) :
    ∀ (secs : List Section) (firstId : String),
      (∀ sec ∈ secs, ¬ sec.top ≤ probeY) → lastAbove probeY secs firstId = firstId := by
  intro secs
  induction secs with
  | nil => intro _ _; rfl
  | cons sec rest ih =>
    intro firstId h
    unfold lastAbove
    rw [List.foldl_cons, if_neg (h sec (List.mem_cons_self _ _))]
    exact ih firstId (fun x hx => h x (List.mem_cons_of_mem _ hx))

theorem lastAbove_of_last (probeY : Int) :
    ∀ (secs : List Section) (firstId : String) (i : Nat) (hi : i < secs.length),
      secs[i].top ≤ probeY →
      (∀ j (hj : j < secs.length), i < j → ¬ secs[j].top ≤ probeY) →
      lastAbove probeY secs firstId = secs[i].id := by
  intro secs
  induction secs with
  | nil => intro _ i hi; exact absurd hi (Nat.not_lt_zero _)
  | cons sec rest ih =>
    intro firstId i hi htop hafter
    cases i with
    | zero =>
      have htop0 : sec.top ≤ probeY := htop
      unfold lastAbove
      rw [List.foldl_cons, if_pos htop0]
      refine lastAbove_of_none probeY rest sec.id ?_
      intro x hx
      obtain ⟨k, hk, rfl⟩ := List.getElem_of_mem hx
      exact hafter (k + 1) (Nat.succ_lt_succ hk) (Nat.succ_pos _)
    | succ k =>
      have hk : k < rest.length := Nat.lt_of_succ_lt_succ hi
      unfold lastAbove
      rw [List.foldl_cons]
      exact ih _ k hk htop
        (fun j hj hkj => hafter (j + 1) (Nat.succ_lt_succ hj) (Nat.succ_lt_succ hkj))

theorem setActive_hrefs (id : String) (links : List NavLink) :
    (setActive id links).map (fun a => a.href) = links.map (fun a => a.href) := by
  unfold setActive
  simp [List.map_map, Function.comp_def]

theorem setActive_active_iff (id : String) (links : List NavLink) :
    ∀ a ∈ setActive id links, (a.active = true ↔ a.href = "#" ++ id) := by
  intro a ha
  unfold setActive at ha
  simp only [List.mem_map] at ha
  obtain ⟨b, _, rfl⟩ := ha
  simp

theorem activeCount_setActive (id : String) (links : List NavLink) :
    activeCount (setActive id links)
      = (links.map (fun a => a.href)).count ("#" ++ id) := by
  unfold activeCount setActive
  induction links with
  | nil => rfl
  | cons a rest ih =>
    simp only [List.map_cons, List.filter_cons, List.count_cons]
    by_cases h : a.href = "#" ++ id
    · simp [h, ih]
    · simp [h, ih]

theorem activeCount_setActive_le_one (id : String) (links : List NavLink)
    (hnd : (links.map (fun a => a.href)).Nodup) :
    activeCount (setActive id links) ≤ 1 := by
  rw [activeCount_setActive]
  exact List.nodup_iff_count_le_one.mp hnd _

theorem updateActiveLink_links (v : Viewport) (secs : List Section) (p : Page) :
    (updateActiveLink v secs p).links
      = match activeSectionId v secs p with
        | some id => setActive id p.links
        | none => p.links := by
  unfold updateActiveLink
  cases activeSectionId v secs p <;> rfl

theorem clickLink_links (a : NavLink) (p : Page) :
    (clickLink a p).links
      = if a.href.drop 1 ≠ "" then setActive (a.href.drop 1) p.links else p.links := by
  unfold clickLink
  simp only
  split_ifs <;> rfl

/-- A navigation event leaves the links alone or calls `setActive` once. -/
theorem navEvent_links (e : NavEvent) (p : Page) :
    (e.apply p).links = p.links ∨ ∃ id, (e.apply p).links = setActive id p.links := by
  cases e with
  | update v secs =>
    have h : (NavEvent.update v secs).apply p = updateActiveLink v secs p := rfl
    rw [h, updateActiveLink_links]
    cases activeSectionId v secs p with
    | none => left; rfl
    | some id => right; exact ⟨id, rfl⟩
  | click i =>
    have h : (NavEvent.click i).apply p
        = match p.links.get? i with
          | some a => clickLink a p
          | none => p := rfl
    rw [h]
    cases p.links.get? i with
    | none => left; rfl
    | some a =>
      show (clickLink a p).links = _ ∨ _
      rw [clickLink_links]
      split_ifs
      · right; exact ⟨_, rfl⟩
      · left; rfl

theorem runNav_cons (e : NavEvent) (rest : List NavEvent) (p : Page) :
    runNav (e :: rest) p = runNav rest (e.apply p) := rfl

theorem runNav_exclusive (events : List NavEvent) :
    ∀ p : Page, (p.links.map (fun a => a.href)).Nodup →
      ((runNav events p).links.map (fun a => a.href) = p.links.map (fun a => a.href))
        ∧ ((runNav events p).links = p.links ∨ activeCount (runNav events p).links ≤ 1) := by
  induction events with
  | nil => intro p _; exact ⟨rfl, Or.inl rfl⟩
  | cons e rest ih =>
    intro p hnd
    rw [runNav_cons]
    rcases navEvent_links e p with h | ⟨id, h⟩
    · have hnd1 : ((e.apply p).links.map (fun a => a.href)).Nodup := by rw [h]; exact hnd
      obtain ⟨k1, k2⟩ := ih (e.apply p) hnd1
      rw [h] at k1 k2
      exact ⟨k1, k2⟩
    · have hh : (e.apply p).links.map (fun a => a.href) = p.links.map (fun a => a.href) := by
        rw [h, setActive_hrefs]
      have hnd1 : ((e.apply p).links.map (fun a => a.href)).Nodup := by rw [hh]; exact hnd
      obtain ⟨k1, k2⟩ := ih (e.apply p) hnd1
      refine ⟨k1.trans hh, Or.inr ?_⟩
      rcases k2 with k2 | k2
      · rw [k2, h]
        exact activeCount_setActive_le_one id p.links hnd
      · exact k2

theorem crossesProbe_iff (probeY : Int) (sec : Section) :
    crossesProbe probeY sec = true ↔ (sec.top ≤ probeY ∧ probeY < sec.bottom) := by
  unfold crossesProbe
  simp

/-- With a header, sections and links, and the page not at the bottom,
`updateActiveLink` hands the result of the probe to `setActive`. -/
theorem activeSectionId_of_not_bottom (v : Viewport) (secs : List Section) (p : Page)
    (hne : secs ≠ []) (hh : p.hasHeader = true) (hl : p.links ≠ [])
    (hb : ¬ (v.innerHeight + v.scrollY ≥ v.scrollHeight - 2)) :
    activeSectionId v secs p
      = probeSectionId
          (getCssPx p.headerH (if v.headerOffsetHeight ≠ 0 then v.headerOffsetHeight else 64) + 1)
          secs := by
  unfold activeSectionId
  have h1 : secs.length ≠ 0 := fun h => hne (List.length_eq_zero.mp h)
  have h2 : p.links.length ≠ 0 := fun h => hl (List.length_eq_zero.mp h)
  simp [hh, h1, h2, hb]

/-- With a header, sections and links, and the page at the bottom,
`updateActiveLink` hands the id of the last section to `setActive`. -/
theorem activeSectionId_of_bottom (v : Viewport) (secs : List Section) (p : Page)
    (hne : secs ≠ []) (hh : p.hasHeader = true) (hl : p.links ≠ [])
    (hb : v.innerHeight + v.scrollY ≥ v.scrollHeight - 2) :
    activeSectionId v secs p = (secs.map (fun sec => sec.id)).getLast? := by
  unfold activeSectionId
  have h1 : secs.length ≠ 0 := fun h => hne (List.length_eq_zero.mp h)
  have h2 : p.links.length ≠ 0 := fun h => hl (List.length_eq_zero.mp h)
  simp [hh, h1, h2, hb, List.getLast?_map]

/-- C5: for a non-empty section list and every probe line, the id handed to
`setActive` when the page is not at the bottom is the id of the first section
with `top ≤ probeY < bottom` if there is one, otherwise the id of the last
section with `top ≤ probeY` if there is one, otherwise the id of the first
section; `updateActiveLink` uses it with the probe line one below the header
height. -/
theorem probe_section_choice (probeY : Int) (secs : List Section) (hne : secs ≠ []) :
    ∃ id, probeSectionId probeY secs = some id
      ∧ (∀ i (hi : i < secs.length),
          (secs[i].top ≤ probeY ∧ probeY < secs[i].bottom) →
          (∀ j (hj : j < secs.length), j < i →
            ¬ (secs[j].top ≤ probeY ∧ probeY < secs[j].bottom)) →
          id = secs[i].id)
      ∧ ((∀ sec ∈ secs, ¬ (sec.top ≤ probeY ∧ probeY < sec.bottom)) →
          ∀ i (hi : i < secs.length), secs[i].top ≤ probeY →
            (∀ j (hj : j < secs.length), i < j → ¬ secs[j].top ≤ probeY) →
            id = secs[i].id)
      ∧ ((∀ sec ∈ secs, ¬ sec.top ≤ probeY) → id = (secs.head hne).id)
      ∧ (∀ (v : Viewport) (p : Page), p.hasHeader = true → p.links ≠ [] →
          ¬ (v.innerHeight + v.scrollY ≥ v.scrollHeight - 2) →
          getCssPx p.headerH (if v.headerOffsetHeight ≠ 0 then v.headerOffsetHeight else 64) + 1
            = probeY →
          activeSectionId v secs p = some id) := by
  have hhead : secs.head? = some (secs.head hne) := List.head?_eq_head hne
  have hnone : (∀ sec ∈ secs, ¬ (sec.top ≤ probeY ∧ probeY < sec.bottom)) →
      secs.find? (crossesProbe probeY) = none := by
    intro h
    rw [List.find?_eq_none]
    intro x hx hc
    exact h x hx ((crossesProbe_iff probeY x).mp hc)
  have hsome : ∃ id, probeSectionId probeY secs = some id := by
    unfold probeSectionId
    cases secs.find? (crossesProbe probeY) with
    | some cur => exact ⟨_, rfl⟩
    | none => rw [hhead]; exact ⟨_, rfl⟩
  obtain ⟨id, hid⟩ := hsome
  refine ⟨id, hid, ?_, ?_, ?_, ?_⟩
  · intro i hi hc hbefore
    have hf : secs.find? (crossesProbe probeY) = some secs[i] := by
      refine find_first (crossesProbe probeY) secs i hi ((crossesProbe_iff _ _).mpr hc) ?_
      intro j hj hji
      have := hbefore j hj hji
      rw [← crossesProbe_iff] at this
      simpa using this
    unfold probeSectionId at hid
    rw [hf] at hid
    exact (Option.some.inj hid).symm
  · intro hno i hi htop hafter
    unfold probeSectionId at hid
    rw [hnone hno, hhead] at hid
    rw [← Option.some.inj hid]
    exact lastAbove_of_last probeY secs _ i hi htop hafter
  · intro hno
    unfold probeSectionId at hid
    rw [hnone (fun sec hs hc => hno sec hs hc.1), hhead] at hid
    rw [← Option.some.inj hid]
    exact lastAbove_of_none probeY secs _ hno
  · intro v p hh hl hb hy
    rw [activeSectionId_of_not_bottom v secs p hne hh hl hb, hy, hid]

/-- C5, at two stacked sections and the probe line 150: the second section
contains the line and is chosen. -/
theorem probe_section_choice_witness :
    ([⟨"intro", 0, 100⟩, ⟨"about", 100, 200⟩] : List Section) ≠ []
      ∧ probeSectionId 150 [⟨"intro", 0, 100⟩, ⟨"about", 100, 200⟩] = some "about" := by
  refine ⟨by decide, ?_⟩
  obtain ⟨id, h1, h2, _⟩ :=
    probe_section_choice 150 [⟨"intro", 0, 100⟩, ⟨"about", 100, 200⟩] (by decide)
  have h3 := h2 1 (by decide) (by decide) (by
    intro j hj hj1
    have hj0 : j = 0 := by omega
    subst hj0
    simp)
  rw [h1, h3]
  rfl

/-- C6: with a header, a non-empty section list and a non-empty link list, if
`innerHeight + scrollY ≥ scrollHeight - 2` then after `updateActiveLink` a link
is active exactly when its `href` is `#` followed by the id of the last
section, and the result is the same for every geometry of the sections. -/
theorem bottom_override (v : Viewport) (p : Page) (secs : List Section)
    (hne : secs ≠ []) (hl : p.links ≠ []) (hh : p.hasHeader = true)
    (hb : v.innerHeight + v.scrollY ≥ v.scrollHeight - 2) :
    (updateActiveLink v secs p).links = setActive (secs.getLast hne).id p.links
      ∧ (updateActiveLink v secs p).links.map (fun a => a.href)
          = p.links.map (fun a => a.href)
      ∧ (∀ a ∈ (updateActiveLink v secs p).links,
          (a.active = true ↔ a.href = "#" ++ (secs.getLast hne).id))
      ∧ (∀ secs2 : List Section,
          secs2.map (fun sec => sec.id) = secs.map (fun sec => sec.id) →
          updateActiveLink v secs2 p = updateActiveLink v secs p) := by
  have hid : activeSectionId v secs p = some (secs.getLast hne).id := by
    rw [activeSectionId_of_bottom v secs p hne hh hl hb, List.getLast?_map,
      List.getLast?_eq_getLast secs hne]
    rfl
  have hlinks : (updateActiveLink v secs p).links = setActive (secs.getLast hne).id p.links := by
    rw [updateActiveLink_links, hid]
  refine ⟨hlinks, ?_, ?_, ?_⟩
  · rw [hlinks, setActive_hrefs]
  · rw [hlinks]
    exact setActive_active_iff _ _
  · intro secs2 hids
    have hne2 : secs2 ≠ [] := by
      intro h
      rw [h] at hids
      exact hne (List.map_eq_nil_iff.mp hids.symm)
    have e : activeSectionId v secs2 p = activeSectionId v secs p := by
      rw [activeSectionId_of_bottom v secs2 p hne2 hh hl hb,
        activeSectionId_of_bottom v secs p hne hh hl hb, hids]
    unfold updateActiveLink
    rw [e]

/-- C6, at a short last section whose rectangle does not reach the probe
line. -/
theorem bottom_override_witness :
    ([⟨"intro", -1500, -300⟩, ⟨"contact", 600, 700⟩] : List Section) ≠ []
      ∧ (800 : Int) + 1200 ≥ 2001 - 2
      ∧ (updateActiveLink ⟨1200, 800, 2001, 56, none, none⟩
          [⟨"intro", -1500, -300⟩, ⟨"contact", 600, 700⟩]
          ⟨true, true, some 56, [⟨"#intro", true⟩, ⟨"#contact", false⟩]⟩).links
        = setActive "contact" [⟨"#intro", true⟩, ⟨"#contact", false⟩] :=
  ⟨by decide, by decide,
    (bottom_override ⟨1200, 800, 2001, 56, none, none⟩
      ⟨true, true, some 56, [⟨"#intro", true⟩, ⟨"#contact", false⟩]⟩
      [⟨"intro", -1500, -300⟩, ⟨"contact", 600, 700⟩]
      (by decide) (by decide) rfl (by decide)).1⟩

/-- C7, as stated, fails for links that share an `href`: with two links to
`#intro`, one run of `updateActiveLink` on the section `intro` marks both. -/
theorem shared_href_counterexample :
    activeCount (runNav [NavEvent.update ⟨0, 800, 2000, 88, none, none⟩ [⟨"intro", 0, 900⟩]]
        ⟨true, false, none, [⟨"#intro", false⟩, ⟨"#intro", false⟩]⟩).links = 2
      ∧ ¬ (activeCount (runNav
            [NavEvent.update ⟨0, 800, 2000, 88, none, none⟩ [⟨"intro", 0, 900⟩]]
            ⟨true, false, none, [⟨"#intro", false⟩, ⟨"#intro", false⟩]⟩).links ≤ 1) := by
  decide

/-- C7 (amended): for a link list whose `href` values are pairwise distinct,
in every state reached by `updateActiveLink` runs and link clicks, either the
links are still as they were at the start or at most one link carries the
active marker; so when at most one link carried it at the start, at most one
carries it in every state reached. For every link list, `setActive(id)` keeps
the `href` values and leaves a link active exactly when its `href` equals `#`
followed by `id`. -/
theorem nav_exclusive_distinct_hrefs (p : Page) (events : List NavEvent)
    (hnd : (p.links.map (fun a => a.href)).Nodup) :
    ((runNav events p).links = p.links ∨ activeCount (runNav events p).links ≤ 1)
      ∧ (activeCount p.links ≤ 1 → activeCount (runNav events p).links ≤ 1)
      ∧ (∀ (id : String) (links : List NavLink),
          (setActive id links).map (fun a => a.href) = links.map (fun a => a.href)
            ∧ ∀ a ∈ setActive id links, (a.active = true ↔ a.href = "#" ++ id)) := by
  obtain ⟨_, h⟩ := runNav_exclusive events p hnd
  refine ⟨h, ?_, ?_⟩
  · intro h0
    rcases h with h | h
    · rw [h]; exact h0
    · exact h
  · intro id links
    exact ⟨setActive_hrefs id links, setActive_active_iff id links⟩

/-- C7 (amended), at two links, a click on the second and a run at the top of
the page. -/
theorem nav_exclusive_distinct_hrefs_witness :
    (([⟨"#intro", false⟩, ⟨"#about", false⟩] : List NavLink).map (fun a => a.href)).Nodup
      ∧ activeCount (runNav
          [NavEvent.click 1, NavEvent.update ⟨0, 800, 2000, 88, none, none⟩
            [⟨"intro", 0, 900⟩, ⟨"about", 900, 1800⟩]]
          ⟨true, false, none, [⟨"#intro", false⟩, ⟨"#about", false⟩]⟩).links ≤ 1 :=
  ⟨by decide,
    (nav_exclusive_distinct_hrefs
      ⟨true, false, none, [⟨"#intro", false⟩, ⟨"#about", false⟩]⟩
      [NavEvent.click 1, NavEvent.update ⟨0, 800, 2000, 88, none, none⟩
        [⟨"intro", 0, 900⟩, ⟨"about", 900, 1800⟩]]
      (by decide)).2.1 (by decide)⟩

/-! ## Properties of the throttle -/

/-- The flag `ticking` is set exactly when one frame callback is requested. -/
theorem throttle_step_inv (st : ThrottleStep) (t : Throttle)
    (h : (t.ticking = true ∧ t.pending = 1) ∨ (t.ticking = false ∧ t.pending = 0)) :
    ((st.apply t).ticking = true ∧ (st.apply t).pending = 1)
      ∨ ((st.apply t).ticking = false ∧ (st.apply t).pending = 0) := by
  cases st with
  | event =>
    show ((onScrollOrResize t).ticking = true ∧ (onScrollOrResize t).pending = 1) ∨ _
    unfold onScrollOrResize
    rcases h with ⟨h1, h2⟩ | ⟨h1, h2⟩
    · left; simp [h1, h2]
    · left; simp [h1, h2]
  | frame v secs =>
    right
    show (animationFrame v secs t).ticking = false ∧ (animationFrame v secs t).pending = 0
    unfold animationFrame
    rcases h with ⟨_, h2⟩ | ⟨h1, h2⟩
    · simp [h2, frameCallback]
    · simp [h2, h1]

theorem runThrottle_inv (steps : List ThrottleStep) :
    ∀ t : Throttle,
      ((t.ticking = true ∧ t.pending = 1) ∨ (t.ticking = false ∧ t.pending = 0)) →
      (((runThrottle steps t).ticking = true ∧ (runThrottle steps t).pending = 1)
        ∨ ((runThrottle steps t).ticking = false ∧ (runThrottle steps t).pending = 0)) := by
  induction steps with
  | nil => intro t h; exact h
  | cons st rest ih => intro t h; exact ih (st.apply t) (throttle_step_inv st t h)

/-- One event or more, with no frame in between, leave exactly one callback
requested and touch nothing else. -/
theorem events_coalesce (k : Nat) :
    ∀ t : Throttle,
      ((t.ticking = true ∧ t.pending = 1) ∨ (t.ticking = false ∧ t.pending = 0)) →
      runThrottle (List.replicate (k + 1) ThrottleStep.event) t
        = { t with ticking := true, pending := 1 } := by
  induction k with
  | zero =>
    intro t h
    show onScrollOrResize t = _
    unfold onScrollOrResize
    rcases h with ⟨h1, h2⟩ | ⟨h1, h2⟩
    · rw [if_pos h1]
      cases t
      simp_all
    · simp [h1, h2]
  | succ k ih =>
    intro t h
    have hstep := throttle_step_inv ThrottleStep.event t h
    have e : runThrottle (List.replicate (k + 1 + 1) ThrottleStep.event) t
        = runThrottle (List.replicate (k + 1) ThrottleStep.event) (onScrollOrResize t) := rfl
    rw [e, ih (onScrollOrResize t) hstep]
    unfold onScrollOrResize
    split_ifs <;> rfl

/-! ## Properties of the modal -/

theorem modalCall_inv (c : ModalCall) (s : ModalState) (hone : c.ClosesAlone s) :
    ∀ d, (c.apply s).isOpen d = true → (c.apply s).bodyModalOpen = true := by
  cases c with
  | openModal m fs cf => intro d _; rfl
  | closeModal m att cf =>
    intro d hd
    exfalso
    have hone1 : ∀ x, s.isOpen x = true → x = m := hone
    have hd1 : (closeModal m att cf s).isOpen d = true := hd
    unfold ModalState.isOpen closeModal at hd1
    simp only at hd1
    by_cases hdm : d = m
    · rw [if_pos hdm] at hd1
      revert hd1
      decide
    · rw [if_neg hdm] at hd1
      exact hdm (hone1 d hd1)

theorem allClosed_isOpen (focused : Option Nat) (d : Nat) :
    (ModalState.allClosed focused).isOpen d = false := by
  show (some "true" == some "false") = false
  decide

theorem runModal_inv (calls : List ModalCall) :
    ∀ s : ModalState, (∀ d, s.isOpen d = true → s.bodyModalOpen = true) →
      ClosesAlone calls s →
      ∀ d, (runModal calls s).isOpen d = true → (runModal calls s).bodyModalOpen = true := by
  induction calls with
  | nil => intro s h _; exact h
  | cons c rest ih =>
    intro s _ hone
    exact ih (c.apply s) (modalCall_inv c s hone.1) hone.2

theorem trap_cons (canFocus : Nat → Bool) (e : KeyEvent) (first : Nat) (rest : List Nat)
    (active : Option Nat) (hk : e.key = "Tab") :
    trap canFocus e (first :: rest) active
      = if (e.shiftKey && active == some first) = true then
          { activeElement :=
              focus canFocus ((first :: rest).getLast (List.cons_ne_nil first rest)) active,
            defaultPrevented := true }
        else if (!e.shiftKey
            && active == some ((first :: rest).getLast (List.cons_ne_nil first rest))) = true then
          { activeElement := focus canFocus first active, defaultPrevented := true }
        else { activeElement := active, defaultPrevented := false } := by
  unfold trap
  simp [hk]

/-- C8, as stated, fails when a listed element cannot take focus:
`getFocusable` lists every `input`, hidden ones included. With the list
`[10, 11, 13]`, element 13 a hidden input and focus on 10, Shift+Tab suppresses
the default and leaves focus on 10 instead of moving it to 13. -/
theorem trap_hidden_input_counterexample :
    trap (fun x => x != 13) ⟨"Tab", true⟩ [10, 11, 13] (some 10)
        = { activeElement := some 10, defaultPrevented := true }
      ∧ ¬ (trap (fun x => x != 13) ⟨"Tab", true⟩ [10, 11, 13] (some 10)
            = { activeElement := some 13, defaultPrevented := true }) := by
  decide

/-- C8 (amended): on a Tab key-down with a non-empty list from `getFocusable`,
without Shift and with focus on the last listed element the trap suppresses the
default and focus moves to the first listed element if that element can take
focus (it stays where it is otherwise); with Shift and focus on the first
listed element the trap suppresses the default and focus moves to the last if
that element can take focus (it stays otherwise); in every other case (another
key, an empty list, focus elsewhere) focus is not moved and the default is not
suppressed. -/
theorem trap_behaviour (canFocus : Nat → Bool) (e : KeyEvent) (list : List Nat)
    (active : Option Nat) :
    (∀ hne : list ≠ [], e.key = "Tab" → e.shiftKey = false →
        active = some (list.getLast hne) →
        trap canFocus e list active
          = { activeElement := if canFocus (list.head hne) then some (list.head hne) else active,
              defaultPrevented := true })
      ∧ (∀ hne : list ≠ [], e.key = "Tab" → e.shiftKey = true →
        active = some (list.head hne) →
        trap canFocus e list active
          = { activeElement :=
                if canFocus (list.getLast hne) then some (list.getLast hne) else active,
              defaultPrevented := true })
      ∧ ((e.key ≠ "Tab" ∨ list = []
          ∨ (e.shiftKey = false ∧ ∀ hne : list ≠ [], active ≠ some (list.getLast hne))
          ∨ (e.shiftKey = true ∧ ∀ hne : list ≠ [], active ≠ some (list.head hne))) →
        trap canFocus e list active = { activeElement := active, defaultPrevented := false }) := by
  refine ⟨?_, ?_, ?_⟩
  · intro hne hk hs ha
    cases list with
    | nil => exact absurd rfl hne
    | cons first rest =>
      rw [trap_cons canFocus e first rest active hk]
      simp [hs, ha, focus]
  · intro hne hk hs ha
    cases list with
    | nil => exact absurd rfl hne
    | cons first rest =>
      rw [trap_cons canFocus e first rest active hk]
      simp [hs, ha, focus]
  · intro h
    by_cases hk : e.key = "Tab"
    · cases list with
      | nil => unfold trap; simp
      | cons first rest =>
        rw [trap_cons canFocus e first rest active hk]
        rcases h with h | h | ⟨hs, h⟩ | ⟨hs, h⟩
        · exact absurd hk h
        · exact absurd h (List.cons_ne_nil _ _)
        · have := h (List.cons_ne_nil _ _)
          simp [hs, this]
        · have := h (List.cons_ne_nil _ _)
          simp only [List.head_cons] at this
          simp [hs, this]
    · unfold trap
      simp [hk]

/-- C8 (amended), at three elements that all take focus: Tab on the last goes
to the first, Shift+Tab on the first goes to the last, and Tab in the middle is
left to the browser. -/
theorem trap_behaviour_witness :
    trap (fun _ => true) ⟨"Tab", false⟩ [10, 11, 12] (some 12)
        = { activeElement := some 10, defaultPrevented := true }
      ∧ trap (fun _ => true) ⟨"Tab", true⟩ [10, 11, 12] (some 10)
        = { activeElement := some 12, defaultPrevented := true }
      ∧ trap (fun _ => true) ⟨"Tab", false⟩ [10, 11, 12] (some 11)
        = { activeElement := some 11, defaultPrevented := false } :=
  ⟨(trap_behaviour (fun _ => true) ⟨"Tab", false⟩ [10, 11, 12] (some 12)).1
      (by decide) rfl rfl rfl,
    (trap_behaviour (fun _ => true) ⟨"Tab", true⟩ [10, 11, 12] (some 10)).2.1
      (by decide) rfl rfl rfl,
    (trap_behaviour (fun _ => true) ⟨"Tab", false⟩ [10, 11, 12] (some 11)).2.2
      (Or.inr (Or.inr (Or.inl ⟨rfl, fun _ => by simp⟩)))⟩

/-- C9, as stated, fails with two dialogs: after `openModal(1)`,
`openModal(2)`, `closeModal(2)`, dialog 1 is still marked open and the body
has lost the marker. -/
theorem stacked_dialogs_counterexample :
    (∀ d, (ModalState.allClosed none).isOpen d = false)
      ∧ (runModal [ModalCall.openModal 1 [] (fun _ => true),
          ModalCall.openModal 2 [] (fun _ => true),
          ModalCall.closeModal 2 (fun _ => true) (fun _ => true)]
          (ModalState.allClosed none)).isOpen 1 = true
      ∧ (runModal [ModalCall.openModal 1 [] (fun _ => true),
          ModalCall.openModal 2 [] (fun _ => true),
          ModalCall.closeModal 2 (fun _ => true) (fun _ => true)]
          (ModalState.allClosed none)).bodyModalOpen = false := by
  refine ⟨fun d => allClosed_isOpen none d, by decide, by decide⟩

/-- C9 (amended): in every state reached from an all-closed state by
`openModal(d)` and `closeModal(d)` calls in which every `closeModal(d)` is made
while no dialog other than `d` is marked open (the `openModal` calls are
unrestricted, so several dialogs may be open at once), if a dialog is marked
open then the body carries the modal-open marker. -/
theorem modal_marker_while_open (s0 : ModalState) (calls : List ModalCall)
    (h0 : ∀ d, s0.isOpen d = false) (hone : ClosesAlone calls s0) :
    ∀ d, (runModal calls s0).isOpen d = true → (runModal calls s0).bodyModalOpen = true := by
  refine runModal_inv calls s0 ?_ hone
  intro d hd
  rw [h0 d] at hd
  exact absurd hd (by decide)

/-- C9 (amended), at dialog 1 opened and closed, then dialogs 2 and 3 opened
one over the other. -/
theorem modal_marker_while_open_witness :
    (runModal [ModalCall.openModal 1 [7] (fun _ => true),
        ModalCall.closeModal 1 (fun _ => true) (fun _ => true),
        ModalCall.openModal 2 [] (fun _ => true),
        ModalCall.openModal 3 [] (fun _ => true)]
        (ModalState.allClosed (some 4))).isOpen 2 = true
      ∧ (runModal [ModalCall.openModal 1 [7] (fun _ => true),
        ModalCall.closeModal 1 (fun _ => true) (fun _ => true),
        ModalCall.openModal 2 [] (fun _ => true),
        ModalCall.openModal 3 [] (fun _ => true)]
        (ModalState.allClosed (some 4))).isOpen 3 = true
      ∧ (runModal [ModalCall.openModal 1 [7] (fun _ => true),
        ModalCall.closeModal 1 (fun _ => true) (fun _ => true),
        ModalCall.openModal 2 [] (fun _ => true),
        ModalCall.openModal 3 [] (fun _ => true)]
        (ModalState.allClosed (some 4))).bodyModalOpen = true := by
  refine ⟨by decide, by decide, ?_⟩
  refine modal_marker_while_open (ModalState.allClosed (some 4))
    [ModalCall.openModal 1 [7] (fun _ => true),
      ModalCall.closeModal 1 (fun _ => true) (fun _ => true),
      ModalCall.openModal 2 [] (fun _ => true),
      ModalCall.openModal 3 [] (fun _ => true)]
    (fun d => allClosed_isOpen (some 4) d) ?_ 2 (by decide)
  refine ⟨trivial, ?_, trivial, trivial, trivial⟩
  intro d hd
  by_cases h : d = 1
  · exact h
  · exfalso
    revert hd
    simp [ModalCall.apply, openModal, ModalState.isOpen, ModalState.allClosed, h]

/-- C10: in every state `t` reached by scroll or resize events and animation
frames, at most one frame callback is requested; `k ≥ 1` further events with
no frame between them leave exactly one callback requested (one more than
before when none was) and recompute nothing; the next frame then runs exactly
one recomputation, `syncHeaderState` followed by `updateActiveLink`, and
leaves nothing requested. -/
theorem throttle_coalesces (p : Page) (steps : List ThrottleStep) (k : Nat) (hk : 1 ≤ k)
    (v : Viewport) (secs : List Section) :
    (runThrottle steps (Throttle.start p)).pending ≤ 1
      ∧ (runThrottle (List.replicate k ThrottleStep.event)
          (runThrottle steps (Throttle.start p))).pending = 1
      ∧ ((runThrottle steps (Throttle.start p)).pending = 0 →
          (runThrottle (List.replicate k ThrottleStep.event)
            (runThrottle steps (Throttle.start p))).pending
            = (runThrottle steps (Throttle.start p)).pending + 1)
      ∧ (runThrottle (List.replicate k ThrottleStep.event)
          (runThrottle steps (Throttle.start p))).recomputations
          = (runThrottle steps (Throttle.start p)).recomputations
      ∧ (runThrottle (List.replicate k ThrottleStep.event)
          (runThrottle steps (Throttle.start p))).page
          = (runThrottle steps (Throttle.start p)).page
      ∧ (animationFrame v secs (runThrottle (List.replicate k ThrottleStep.event)
          (runThrottle steps (Throttle.start p)))).recomputations
          = (runThrottle steps (Throttle.start p)).recomputations + 1
      ∧ (animationFrame v secs (runThrottle (List.replicate k ThrottleStep.event)
          (runThrottle steps (Throttle.start p)))).page
          = updateActiveLink v secs
              (syncHeaderState v (runThrottle steps (Throttle.start p)).page)
      ∧ (animationFrame v secs (runThrottle (List.replicate k ThrottleStep.event)
          (runThrottle steps (Throttle.start p)))).pending = 0
      ∧ (animationFrame v secs (runThrottle (List.replicate k ThrottleStep.event)
          (runThrottle steps (Throttle.start p)))).ticking = false := by
  have hinv := runThrottle_inv steps (Throttle.start p) (Or.inr ⟨rfl, rfl⟩)
  obtain ⟨j, rfl⟩ : ∃ j, k = j + 1 := ⟨k - 1, by omega⟩
  rw [events_coalesce j _ hinv]
  refine ⟨?_, rfl, ?_, rfl, rfl, rfl, rfl, rfl, rfl⟩
  · rcases hinv with ⟨_, h⟩ | ⟨_, h⟩ <;> omega
  · intro h
    rw [h]

/-- C10, at a hundred scroll events after the initial call of
`onScrollOrResize`: one callback is requested and the frame recomputes
once. -/
theorem throttle_coalesces_witness :
    (1 ≤ 100)
      ∧ (runThrottle (List.replicate 100 ThrottleStep.event)
          (runThrottle [ThrottleStep.event]
            (Throttle.start ⟨true, false, none, [⟨"#intro", false⟩]⟩))).pending = 1
      ∧ (animationFrame ⟨40, 800, 2000, 88, none, none⟩ [⟨"intro", 0, 900⟩]
          (runThrottle (List.replicate 100 ThrottleStep.event)
            (runThrottle [ThrottleStep.event]
              (Throttle.start ⟨true, false, none, [⟨"#intro", false⟩]⟩)))).recomputations
          = (runThrottle [ThrottleStep.event]
              (Throttle.start ⟨true, false, none, [⟨"#intro", false⟩]⟩)).recomputations + 1 :=
  ⟨by decide,
    (throttle_coalesces ⟨true, false, none, [⟨"#intro", false⟩]⟩ [ThrottleStep.event] 100
      (by decide) ⟨40, 800, 2000, 88, none, none⟩ [⟨"intro", 0, 900⟩]).2.1,
    (throttle_coalesces ⟨true, false, none, [⟨"#intro", false⟩]⟩ [ThrottleStep.event] 100
      (by decide) ⟨40, 800, 2000, 88, none, none⟩ [⟨"intro", 0, 900⟩]).2.2.2.2.2.1⟩

end MainJs
